import Mathlib

/-!
# ComPort: a model of the serial-port controller

A shallow embedding of `src/ComPort.h` and `src/ComPort.cpp`, and of the end
detector of the example program `src/Main.cpp`.

* The controller object is the record `ComPort`; every member function is a
  pure function on that record.
* What the operating system answers (CreateFile, ReadFile, WriteFile, the
  waits) is an explicit argument of the function that asks for it.
* `uint16_t` values are natural numbers reduced modulo `2 ^ 16` where the
  source narrows or wraps. Bytes and callback addresses are natural numbers
  that the code only stores and compares.
* A worker thread is modelled by one function per loop iteration, which says
  whether the loop goes on, blocks on the condition variable or is left.
* The registry functions take their `unique_ptr` by value. `Program` adds the
  free store of `Callback` objects to the controller, and the two functions on
  it say which object each call deletes; undefined behaviour is `none`.
-/

namespace kylsocomport

/-! ## Types of `ComPort.h` -/

/-- The result codes of `ComPort::Result`. -/
inductive Result
  | SUCCESS
  | ERROR_ALREADY_OPEN
  | ERROR_BAD_PORT_NUM
  | ERROR_OPEN
  | ERROR_SET_PORT_CONFIG
  | ERROR_INIT_RX_EVENT
  | ERROR_PORT_CLOSE
  | ERROR_TX_QUEUE_FULL
  | ERROR_INIT_TX_EVENT
deriving DecidableEq, Repr

/-- The baud rates of `ComPort::Baudrate`. -/
inductive Baudrate
  | _110 | _300 | _600 | _1200 | _2400 | _4800 | _9600 | _14400 | _19200
  | _38400 | _56000 | _57600 | _115200 | _128000 | _256000
deriving DecidableEq, Repr

/-- The word lengths of `ComPort::WordLength`. -/
inductive WordLength
  | _7 | _8 | _9
deriving DecidableEq, Repr

/-- The stop bit modes of `ComPort::StopBits`. -/
inductive StopBits
  | _1 | _1_5 | _2
deriving DecidableEq, Repr

/-- The parity modes of `ComPort::Parity`. -/
inductive Parity
  | NO | ODD | EVEN
deriving DecidableEq, Repr

/-- The event kinds of `ComPort::Event`. -/
inductive Event
  | RX_DATA | SHUTDOWN
deriving DecidableEq, Repr

/-- A Windows handle as far as the controller tests it: the null pointer,
`INVALID_HANDLE_VALUE`, or a handle the system gave out. -/
inductive Handle
  | null | invalid | live
deriving DecidableEq, Repr

/-- Narrowing to `uint16_t`. -/
def u16 (n : Nat) : Nat := n % 65536

/-- The private fields of `ComPort`. `hRxEvent_` is `hRxOverlapped_.hEvent`;
a Tx queue element is its byte buffer (the `OVERLAPPED` it owns carries no
data the controller reads); a callback is the address its `unique_ptr` holds. -/
structure ComPort where
  hComPort_ : Handle
  hRxEvent_ : Handle
  isOpen_ : Bool
  portNum_ : Nat
  baudrate_ : Baudrate
  wordLength_ : WordLength
  stopBits_ : StopBits
  parity_ : Parity
  rxQueueSize_ : Nat
  rxQueue_ : List Nat
  txDataQueueSize_ : Nat
  txDataQueueUse_ : Nat
  txOverlappedQueueSize_ : Nat
  txQueue_ : List (List Nat)
  isReleaseTxDataThread_ : Bool
  rxDataCallbacks_ : List Nat
  shutdownCallbacks_ : List Nat
deriving DecidableEq, Repr

/-! ## Construction, open, close -/

/-- The constructor `ComPort::ComPort`. It does not initialise
`isReleaseTxDataThread_`; `flag0` is the value the field happens to hold. -/
def ComPort.ctor (portNum : Nat) (baudrate : Baudrate) (wordLength : WordLength)
    (stopBits : StopBits) (parity : Parity) (flag0 : Bool) : ComPort where
  hComPort_ := Handle.null
  hRxEvent_ := Handle.null
  isOpen_ := false
  portNum_ := portNum
  baudrate_ := baudrate
  wordLength_ := wordLength
  stopBits_ := stopBits
  parity_ := parity
  rxQueueSize_ := 512
  rxQueue_ := []
  txDataQueueSize_ := 512
  txDataQueueUse_ := 0
  txOverlappedQueueSize_ := 5
  txQueue_ := []
  isReleaseTxDataThread_ := flag0
  rxDataCallbacks_ := []
  shutdownCallbacks_ := []

/-- The member `ComPort::close`: the state it leaves. It clears the state flag,
both handles, both queues and the wake flag; it notifies the condition
variable when the wake flag was clear and waits for the workers, neither of
which changes a field. -/
def ComPort.close (s : ComPort) : ComPort :=
  { s with
    isOpen_ := false
    hComPort_ := Handle.null
    hRxEvent_ := Handle.null
    rxQueue_ := []
    txQueue_ := []
    isReleaseTxDataThread_ := false }

/-- What the system answers to the four calls `ComPort::open` makes. -/
structure OpenDevice where
  createFileOk : Bool
  getCommStateOk : Bool
  setCommStateOk : Bool
  createEventOk : Bool
deriving DecidableEq, Repr

/-- The member `ComPort::open`: result code and the state it leaves. -/
def ComPort.open (s : ComPort) (dev : OpenDevice) : Result × ComPort :=
  if s.isOpen_ then (Result.ERROR_ALREADY_OPEN, s)
  else if s.portNum_ == 0 then (Result.ERROR_BAD_PORT_NUM, s)
  else
    let s1 := { s with hComPort_ := if dev.createFileOk then Handle.live else Handle.invalid }
    if !dev.createFileOk then (Result.ERROR_OPEN, s1.close)
    else if !dev.getCommStateOk then (Result.ERROR_SET_PORT_CONFIG, s1.close)
    else if !dev.setCommStateOk then (Result.ERROR_SET_PORT_CONFIG, s1.close)
    else
      let s2 := { s1 with hRxEvent_ := if dev.createEventOk then Handle.live else Handle.null }
      if !dev.createEventOk then (Result.ERROR_INIT_RX_EVENT, s2.close)
      else (Result.SUCCESS, { s2 with isOpen_ := true, isReleaseTxDataThread_ := false })

/-- The member `ComPort::isOpen`. -/
def ComPort.isOpen (s : ComPort) : Bool := s.isOpen_

/-! ## Configuration setters and getters -/

/-- The member `ComPort::setPortNum`. -/
def ComPort.setPortNum (s : ComPort) (portNum : Nat) : Bool × ComPort :=
  if s.isOpen_ || portNum == 0 then (false, s)
  else (true, { s with portNum_ := portNum })

/-- The member `ComPort::getPortNum`. -/
def ComPort.getPortNum (s : ComPort) : Nat := s.portNum_

/-- The member `ComPort::setBaudrate`. -/
def ComPort.setBaudrate (s : ComPort) (baudrate : Baudrate) : Bool × ComPort :=
  if s.isOpen_ then (false, s)
  else (true, { s with baudrate_ := baudrate })

/-- The member `ComPort::getBaudrate`. -/
def ComPort.getBaudrate (s : ComPort) : Baudrate := s.baudrate_

/-- The member `ComPort::setWordLength`. -/
def ComPort.setWordLength (s : ComPort) (wordLength : WordLength) : Bool × ComPort :=
  if s.isOpen_ then (false, s)
  else (true, { s with wordLength_ := wordLength })

/-- The member `ComPort::getWordLength`. -/
def ComPort.getWordLength (s : ComPort) : WordLength := s.wordLength_

/-- The member `ComPort::setStopBits`. -/
def ComPort.setStopBits (s : ComPort) (stopBits : StopBits) : Bool × ComPort :=
  if s.isOpen_ then (false, s)
  else (true, { s with stopBits_ := stopBits })

/-- The member `ComPort::getStopBits`. -/
def ComPort.getStopBits (s : ComPort) : StopBits := s.stopBits_

/-- The member `ComPort::setParity`. -/
def ComPort.setParity (s : ComPort) (parity : Parity) : Bool × ComPort :=
  if s.isOpen_ then (false, s)
  else (true, { s with parity_ := parity })

/-- The member `ComPort::getParity`. -/
def ComPort.getParity (s : ComPort) : Parity := s.parity_

/-! ## Receive side -/

/-- The member `ComPort::getRxDataCount`: the queue size narrowed to 16 bits. -/
def ComPort.getRxDataCount (s : ComPort) : Nat := u16 s.rxQueue_.length

/-- The loop of `ComPort::rxData` on (queue, caller vector, count): while the
queue is not empty and `count` is not zero, move the front byte to the back of
the vector and decrement `count`. -/
def rxDataLoop : List Nat → List Nat → Nat → List Nat × List Nat
  | q, data, 0 => (q, data)
  | [], data, _ + 1 => ([], data)
  | b :: q, data, count + 1 => rxDataLoop q (data ++ [b]) count

/-- The member `ComPort::rxData`: the state it leaves and the caller vector. -/
def ComPort.rxData (s : ComPort) (data : List Nat) (count : Nat) : ComPort × List Nat :=
  let r := rxDataLoop s.rxQueue_ data count
  ({ s with rxQueue_ := r.1 }, r.2)

/-- The push step of `ComPort::doRxData` (the block under `rxQueueLock`). -/
def ComPort.rxPush (s : ComPort) (byte : Nat) : ComPort :=
  if s.rxQueue_.length != s.rxQueueSize_ then { s with rxQueue_ := s.rxQueue_ ++ [byte] }
  else s

/-- What the system answers to one `ReadFile` of the Rx worker: the byte at
once, a failure other than `ERROR_IO_PENDING`, or a pending read with the
results of the wait and of `GetOverlappedResult`. -/
inductive ReadOutcome
  | completed (byte : Nat)
  | error
  | pending (waitOk : Bool) (fetchOk : Bool) (byte : Nat)
deriving DecidableEq, Repr

/-- One pass of a worker loop: the state it leaves, whether the thread has left
its loop (and so ended), and the callbacks it invoked, in order. -/
structure RxIter where
  port : ComPort
  finished : Bool
  fired : List Nat
deriving DecidableEq, Repr

/-- One pass of the loop of `ComPort::doRxData`, with what follows the loop when
the pass leaves it: a received byte is pushed and the data callbacks run; a
fatal read leaves the loop with `isShutdown` set, and the shutdown callbacks
run after the loop. -/
def doRxDataIter (s : ComPort) (r : ReadOutcome) : RxIter :=
  if !s.isOpen_ then ⟨s, true, []⟩
  else
    match r with
    | ReadOutcome.error => ⟨s, true, s.shutdownCallbacks_⟩
    | ReadOutcome.pending waitOk fetchOk byte =>
      if waitOk then
        if !fetchOk then ⟨s, true, s.shutdownCallbacks_⟩
        else ⟨s.rxPush byte, false, s.rxDataCallbacks_⟩
      else ⟨s, true, s.shutdownCallbacks_⟩
    | ReadOutcome.completed byte => ⟨s.rxPush byte, false, s.rxDataCallbacks_⟩

/-! ## Transmit side -/

/-- The test `hasPlaceForData` of `ComPort::txData`: the size narrowed to
`uint16_t` against the difference of the two 16-bit fields, both sides
promoted to `int`. -/
def hasPlaceForData (s : ComPort) (size : Nat) : Bool :=
  decide ((u16 size : Int) < (s.txDataQueueSize_ : Int) - (s.txDataQueueUse_ : Int))

/-- The member `ComPort::txData`: result code and the state it leaves.
`createEventOk` says whether `CreateEvent` gave the frame its event. The call
notifies the condition variable when the wake flag was clear. -/
def ComPort.txData (s : ComPort) (data : List Nat) (createEventOk : Bool) : Result × ComPort :=
  if !s.isOpen_ then (Result.ERROR_PORT_CLOSE, s)
  else if s.txQueue_.length == s.txOverlappedQueueSize_ || !hasPlaceForData s data.length then
    (Result.ERROR_TX_QUEUE_FULL, s)
  else if !createEventOk then (Result.ERROR_INIT_TX_EVENT, s)
  else
    (Result.SUCCESS,
      { s with
        txDataQueueUse_ := u16 (s.txDataQueueUse_ + u16 data.length)
        txQueue_ := s.txQueue_ ++ [data]
        isReleaseTxDataThread_ := true })

/-- What the system answers to one `WriteFile` of the Tx worker: completion at
once with a transferred count, a failure other than `ERROR_IO_PENDING`, or a
pending write with the results of the wait and of `GetOverlappedResult` and
the count then reported. -/
inductive WriteOutcome
  | completed (txDataCnt : Nat)
  | error
  | pending (waitOk : Bool) (fetchOk : Bool) (txDataCnt : Nat)
deriving DecidableEq, Repr

/-- How control leaves the write part of the loop body of `ComPort::doTxData`
(from `WriteFile` to the test of `txDataCnt`): by a `break` statement, or by
reaching the statement `if (isShutdown)` that follows inside the loop. Both
carry the value of the local `isShutdown`. -/
inductive Flow
  | brk (isShutdown : Bool)
  | next (isShutdown : Bool)
deriving DecidableEq, Repr

/-- The write part of the loop body of `ComPort::doTxData` for a buffer of
`size` bytes. Every statement that sets `isShutdown` is followed by `break`. -/
def writeFrame (w : WriteOutcome) (size : Nat) : Flow :=
  match w with
  | WriteOutcome.error => Flow.brk true
  | WriteOutcome.pending waitOk fetchOk txDataCnt =>
    let isTxSuccessful := waitOk && fetchOk && (txDataCnt == size)
    if !isTxSuccessful then Flow.brk true
    else if txDataCnt != size then Flow.brk true
    else Flow.next false
  | WriteOutcome.completed txDataCnt =>
    if txDataCnt != size then Flow.brk true
    else Flow.next false

/-- Where the Tx worker is after one pass of its loop. -/
inductive TxStatus
  | running
  | blocked
  | finished
deriving DecidableEq, Repr

/-- One pass of the loop of `ComPort::doTxData`: the state it leaves, where the
thread is, the buffer it handed to `WriteFile` if any, and the callbacks it
invoked, in order. -/
structure TxIter where
  port : ComPort
  status : TxStatus
  written : Option (List Nat)
  fired : List Nat
deriving DecidableEq, Repr

/-- One pass of the loop of `ComPort::doTxData`. `signalled` says whether the
wait on the condition variable, if entered, returns (a notification or a
spurious wake); when it does not, the thread stays blocked and nothing
changes. A `break` leaves the loop for the statement after it, which is
`endEventHadler.set_value()`; the sweep over `shutdownCallbacks_` stands
inside the loop, after the write part. -/
def doTxDataIter (s : ComPort) (signalled : Bool) (w : WriteOutcome) : TxIter :=
  if !s.isOpen_ then ⟨s, TxStatus.finished, none, []⟩
  else if !s.isReleaseTxDataThread_ && !signalled then ⟨s, TxStatus.blocked, none, []⟩
  else
    let s1 := { s with isReleaseTxDataThread_ := false }
    match s1.txQueue_ with
    | [] => ⟨s1, TxStatus.running, none, []⟩
    | data :: rest =>
      let s2 := { s1 with
        txDataQueueUse_ := u16 (s1.txDataQueueUse_ + 65536 - u16 data.length)
        txQueue_ := rest }
      match writeFrame w data.length with
      | Flow.brk _ => ⟨s2, TxStatus.finished, some data, []⟩
      | Flow.next isShutdown =>
        if isShutdown then ⟨s2, TxStatus.finished, some data, s2.shutdownCallbacks_⟩
        else ⟨s2, TxStatus.running, some data, []⟩

/-! ## Callback registries -/

/-- The search loop of `ComPort::setSubscribeOnEvent`: whether some entry holds
the address `h`. -/
def hasCallback : List Nat → Nat → Bool
  | [], _ => false
  | i :: rest, h => if i == h then true else hasCallback rest h

/-- The loop of `ComPort::resetSubscribeOnEvent`: erase the first entry that
holds the address `h` and stop. -/
def eraseCallback : List Nat → Nat → List Nat
  | [], _ => []
  | i :: rest, h => if i == h then rest else i :: eraseCallback rest h

/-- The body of `ComPort::setSubscribeOnEvent` on the chosen vector. -/
def subscribe (callbacks : List Nat) (h : Nat) : List Nat :=
  if hasCallback callbacks h then callbacks else callbacks ++ [h]

/-- The member `ComPort::setSubscribeOnEvent`: the fields it leaves. What the
call does to the `Callback` object its parameter owns is stated by
`Program.setSubscribeOnEvent`, which leaves these fields. -/
def ComPort.setSubscribeOnEvent (s : ComPort) (event : Event) (callback : Nat) : ComPort :=
  if event == Event.RX_DATA then
    { s with rxDataCallbacks_ := subscribe s.rxDataCallbacks_ callback }
  else
    { s with shutdownCallbacks_ := subscribe s.shutdownCallbacks_ callback }

/-- The erase loop of `ComPort::resetSubscribeOnEvent` on the chosen vector: the
fields it leaves. The member function, with the deletions that the erased
entry and the parameter bring, is `Program.resetSubscribeOnEvent`. -/
def ComPort.eraseEntry (s : ComPort) (event : Event) (callback : Nat) : ComPort :=
  if event == Event.RX_DATA then
    { s with rxDataCallbacks_ := eraseCallback s.rxDataCallbacks_ callback }
  else
    { s with shutdownCallbacks_ := eraseCallback s.shutdownCallbacks_ callback }

/-! ## Runs: calls of the owner and passes of the workers, one at a time -/

/-- One atomic step of a run: a call of a member function by the owner, or one
pass of the Tx worker loop. -/
inductive Action
  | openCall (dev : OpenDevice)
  | closeCall
  | txData (data : List Nat) (createEventOk : Bool)
  | txWorker (signalled : Bool) (w : WriteOutcome)
deriving DecidableEq, Repr

/-- The controller together with what an observer records of a run: whether
the Tx worker thread is inside its loop, the buffers whose `txData` returned
`SUCCESS`, the buffers handed to `WriteFile`, the callbacks the Tx worker
invoked. -/
structure Sys where
  port : ComPort
  txAlive : Bool
  admitted : List (List Nat)
  written : List (List Nat)
  fired : List Nat
deriving DecidableEq, Repr

/-- A controller with no worker thread and nothing recorded. -/
def Sys.init (s : ComPort) : Sys := ⟨s, false, [], [], []⟩

/-- A controller whose `open` has just started the Tx worker. -/
def Sys.opened (s : ComPort) : Sys := ⟨s, true, [], [], []⟩

/-- One step of a run. A successful `open` starts the Tx worker; a pass of the
worker happens only while the thread is inside its loop. -/
def Sys.step (σ : Sys) : Action → Sys
  | Action.openCall dev =>
    let r := σ.port.open dev
    { σ with port := r.2, txAlive := σ.txAlive || (r.1 == Result.SUCCESS) }
  | Action.closeCall => { σ with port := σ.port.close }
  | Action.txData data createEventOk =>
    let r := σ.port.txData data createEventOk
    { σ with
      port := r.2
      admitted := if r.1 == Result.SUCCESS then σ.admitted ++ [data] else σ.admitted }
  | Action.txWorker signalled w =>
    if σ.txAlive then
      let it := doTxDataIter σ.port signalled w
      { σ with
        port := it.port
        txAlive := it.status != TxStatus.finished
        written := σ.written ++ it.written.toList
        fired := σ.fired ++ it.fired }
    else σ

/-- A run: the steps of a list of actions, in order. -/
def Sys.run (σ : Sys) (acts : List Action) : Sys := acts.foldl Sys.step σ

/-- The actions of a port that stays open: `txData` calls and worker passes. -/
def Action.isTx : Action → Bool
  | Action.txData _ _ => true
  | Action.txWorker _ _ => true
  | _ => false

/-- One step on the receive side: the Rx worker pushes a received byte, or the
owner calls `rxData` with a count. -/
inductive RxAction
  | byte (b : Nat)
  | read (count : Nat)
deriving DecidableEq, Repr

/-- The controller with the bytes that have arrived so far and the vector the
owner passes to every `rxData` call. -/
structure RxSys where
  port : ComPort
  arrived : List Nat
  out : List Nat
deriving DecidableEq, Repr

/-- One step on the receive side. -/
def RxSys.step (σ : RxSys) : RxAction → RxSys
  | RxAction.byte b => { σ with port := σ.port.rxPush b, arrived := σ.arrived ++ [b] }
  | RxAction.read count =>
    let r := σ.port.rxData σ.out count
    { σ with port := r.1, out := r.2 }

/-- A run on the receive side. -/
def RxSys.run (σ : RxSys) (acts : List RxAction) : RxSys := acts.foldl RxSys.step σ

/-- The Rx worker pushing the bytes of a list, in order. -/
def rxPushAll (s : ComPort) (bytes : List Nat) : ComPort := bytes.foldl ComPort.rxPush s

/-! ## The controller of `Main.cpp` -/

/-- The controller that `main` constructs; the wake flag, which the constructor
leaves uninitialised, is taken as clear. -/
def mainPort : ComPort :=
  ComPort.ctor 2 Baudrate._115200 WordLength._8 StopBits._1 Parity.NO false

/-- A system on which every call that `open` makes succeeds. -/
def deviceOk : OpenDevice := ⟨true, true, true, true⟩

/-- The controller of `main` just after its `open` returned `SUCCESS`. -/
def mainOpened : ComPort := (mainPort.open deviceOk).2

/-- The registry that `setSubscribeOnEvent` and `resetSubscribeOnEvent` select
for an event kind. -/
def ComPort.callbacks (s : ComPort) (event : Event) : List Nat :=
  if event == Event.RX_DATA then s.rxDataCallbacks_ else s.shutdownCallbacks_

/-! ## Callback objects and their owners

`UpCallback` is `std::unique_ptr<Callback>` and both registry functions take it
by value: the parameter owns the object at its address until it is moved
from, and its destructor deletes what it still owns when the function
returns. An entry of a registry vector owns the object at its address too. -/

/-- The controller together with the free store: the addresses of the
`Callback` objects that are allocated and not yet deleted. Address 0 is the
null pointer. -/
structure Program where
  port : ComPort
  heap : List Nat
deriving DecidableEq, Repr

/-- The destructor of a `unique_ptr<Callback>` that holds the address `p`:
nothing for the null pointer; an allocated object is deleted; to delete an
address that is not allocated is undefined behaviour, `none`. -/
def deleteCallback (heap : List Nat) (p : Nat) : Option (List Nat) :=
  if p == 0 then some heap
  else if heap.contains p then some (heap.filter (fun a => a != p))
  else none

/-- The member `ComPort::setSubscribeOnEvent` with the free store. When the
search loop finds the address, the function returns with the parameter still
owning it, and the destructor of the parameter deletes the object. Otherwise
`push_back(std::move(callback))` hands the object to the vector and leaves the
parameter null. `none` is undefined behaviour. -/
def Program.setSubscribeOnEvent (p : Program) (event : Event) (callback : Nat) :
    Option Program :=
  if hasCallback (p.port.callbacks event) callback then
    match deleteCallback p.heap callback with
    | none => none
    | some heap1 => some ⟨p.port.setSubscribeOnEvent event callback, heap1⟩
  else some ⟨p.port.setSubscribeOnEvent event callback, p.heap⟩

/-- The member `ComPort::resetSubscribeOnEvent` with the free store. When the
loop finds the address, `erase` destroys the entry, which deletes the object,
and at the return the destructor of the parameter deletes the same address
again. When the loop finds nothing, only the parameter is destroyed. `none` is
undefined behaviour. -/
def Program.resetSubscribeOnEvent (p : Program) (event : Event) (callback : Nat) :
    Option Program :=
  if hasCallback (p.port.callbacks event) callback then
    match deleteCallback p.heap callback with
    | none => none
    | some heap1 =>
      match deleteCallback heap1 callback with
      | none => none
      | some heap2 => some ⟨p.port.eraseEntry event callback, heap2⟩
  else
    match deleteCallback p.heap callback with
    | none => none
    | some heap1 => some ⟨p.port, heap1⟩

/-- One step on the registries: a subscribe or an unsubscribe call. -/
inductive RegAction
  | set (event : Event) (callback : Nat)
  | reset (event : Event) (callback : Nat)
deriving DecidableEq, Repr

/-- One step on the registries. -/
def Program.regStep (p : Program) : RegAction → Option Program
  | RegAction.set event callback => p.setSubscribeOnEvent event callback
  | RegAction.reset event callback => p.resetSubscribeOnEvent event callback

/-- A run of subscribe and unsubscribe calls; `none` once a call is undefined. -/
def Program.regRun (p : Program) : List RegAction → Option Program
  | [] => some p
  | a :: acts =>
    match p.regStep a with
    | none => none
    | some q => q.regRun acts

/-- The sum of the sizes of the queued frames. -/
def queuedBytes (q : List (List Nat)) : Nat := (q.map List.length).sum

/-- The invariant of the receive side: capacity 512, at most 512 bytes queued,
and the bytes delivered so far followed by the queued bytes form a subsequence
of the bytes that arrived. -/
def RxSys.inv (σ : RxSys) : Prop :=
  σ.port.rxQueueSize_ = 512 ∧ σ.port.rxQueue_.length ≤ 512 ∧
    (σ.out ++ σ.port.rxQueue_).Sublist σ.arrived

/-- The FIFO invariant of the transmit side: the buffers handed to `WriteFile`
followed by the buffers still queued are the admitted buffers, in order. -/
def Sys.fifo (σ : Sys) : Prop := σ.written ++ σ.port.txQueue_ = σ.admitted

/-- The byte counter agrees with the queue: it is the sum of the sizes of the
queued frames as a 16-bit value. -/
def ComPort.counterExact (s : ComPort) : Prop := s.txDataQueueUse_ = u16 (queuedBytes s.txQueue_)

/-- The invariant of the receive side can be evaluated. -/
instance RxSys.decInv (σ : RxSys) : Decidable σ.inv := by
  unfold RxSys.inv
  infer_instance

/-- The FIFO invariant can be evaluated. -/
instance Sys.decFifo (σ : Sys) : Decidable σ.fifo := by
  unfold Sys.fifo
  infer_instance

/-- The agreement of counter and queue can be evaluated. -/
instance ComPort.decCounterExact (s : ComPort) : Decidable s.counterExact := by
  unfold ComPort.counterExact
  infer_instance

/-! ## The end detector of `Main.cpp`

`DetectEndState` and `detectEnd` are globals of the example program. -/

/-- The enumeration `DetectEndState`: the byte the detector waits for. -/
inductive DetectEndState
  | E
  | N
  | D
deriving DecidableEq, Repr

/-- The value of an enumerator as `static_cast<uint8_t>` gives it. -/
def DetectEndState.toByte : DetectEndState → Nat
  | DetectEndState.E => 0x45
  | DetectEndState.N => 0x4E
  | DetectEndState.D => 0x44

/-- The function `detectEnd`: the value it returns and the state it leaves in
its reference parameter. -/
def detectEnd (detectEndState : DetectEndState) (data : Nat) : Bool × DetectEndState :=
  match detectEndState with
  | DetectEndState.E =>
    if data == DetectEndState.E.toByte then (false, DetectEndState.N)
    else (false, DetectEndState.E)
  | DetectEndState.N =>
    if data == DetectEndState.N.toByte then (false, DetectEndState.D)
    else (false, DetectEndState.E)
  | DetectEndState.D =>
    if data == DetectEndState.D.toByte then (true, DetectEndState.D)
    else (false, DetectEndState.E)

/-- The values returned when the bytes of a list are fed to `detectEnd` one at
a time, the state carried from call to call. -/
def detectEndFeed : DetectEndState → List Nat → List Bool
  | _, [] => []
  | st, b :: rest => (detectEnd st b).1 :: detectEndFeed (detectEnd st b).2 rest

/-- The body of the `for` loop of `main` over the received bytes, on the pair
(`detectEndState`, `isDetectEnd`): `detectEnd` is called only while
`isDetectEnd` is false. -/
def mainScanStep (p : DetectEndState × Bool) (i : Nat) : DetectEndState × Bool :=
  if !p.2 then ((detectEnd p.1 i).2, (detectEnd p.1 i).1) else p

/-- The `for` loop of `main` over the bytes it has read. -/
def mainScan (p : DetectEndState × Bool) (data : List Nat) : DetectEndState × Bool :=
  data.foldl mainScanStep p

/-- What the loop of `main` knows about the bytes `seen` so far: once
`isDetectEnd` is set the bytes contain 0x45, 0x4E, 0x44 in a row; before that,
state `N` means the last byte was 0x45 and state `D` means the last two bytes
were 0x45, 0x4E. -/
def scanInv (seen : List Nat) (p : DetectEndState × Bool) : Prop :=
  (p.2 = true → ∃ pre post, seen = pre ++ [0x45, 0x4E, 0x44] ++ post) ∧
  (p.2 = false → (p.1 = DetectEndState.N → ∃ pre, seen = pre ++ [0x45]) ∧
    (p.1 = DetectEndState.D → ∃ pre, seen = pre ++ [0x45, 0x4E]))

/-! # Theorems -/

/-! ## General facts about the model -/

/-- A successful `open` of the controller of `main` changes the two handles and
the state flag. -/
theorem mainOpened_eq : mainOpened =
    { mainPort with hComPort_ := Handle.live, hRxEvent_ := Handle.live, isOpen_ := true } := by
  rfl

/-! ## txData: the admission test -/

/-- For a buffer shorter than 65536 bytes the result of `txData` is decided as
the interface describes it: closed port, then full queue (five frames, or the
strict byte test failing), then the creation of the event. -/
theorem txData_result_of_small (s : ComPort) (data : List Nat) (createEventOk : Bool)
    (hsize : s.txDataQueueSize_ = 512) (helems : s.txOverlappedQueueSize_ = 5)
    (hn : data.length < 65536) :
    (s.txData data createEventOk).1 =
      if s.isOpen_ = false then Result.ERROR_PORT_CLOSE
      else if s.txQueue_.length = 5 ∨
          ¬ ((data.length : Int) < 512 - (s.txDataQueueUse_ : Int)) then
        Result.ERROR_TX_QUEUE_FULL
      else if createEventOk = true then Result.SUCCESS
      else Result.ERROR_INIT_TX_EVENT := by
  unfold ComPort.txData hasPlaceForData u16
  rw [hsize, helems, Nat.mod_eq_of_lt hn]
  cases hopen : s.isOpen_
  · simp
  · by_cases h5 : s.txQueue_.length = 5
    · simp [h5]
    · by_cases hp : ((data.length : Int) < 512 - (s.txDataQueueUse_ : Int))
      · cases createEventOk <;> simp [h5, hp]
      · simp [h5, hp]

/-- On the freshly opened controller a buffer of exactly 65536 bytes passes the
admission test: its size narrows to 0. -/
theorem txData_of_length_65536 (data : List Nat) (h : data.length = 65536) :
    mainOpened.txData data true =
      (Result.SUCCESS,
        { mainOpened with txQueue_ := [data], isReleaseTxDataThread_ := true }) := by
  simp [ComPort.txData, hasPlaceForData, u16, mainOpened_eq, mainPort, ComPort.ctor, h]

/-- C1, the code at the failing input: the freshly opened controller of `main`
has an empty Tx queue and no byte in flight, a buffer of 65536 zero bytes does
not satisfy `65536 < 512 - 0`, and `txData` returns `SUCCESS` for it, queues it
and leaves the byte counter at 0. -/
theorem txData_admits_65536_bytes :
    mainOpened.isOpen_ = true ∧ mainOpened.txQueue_ = [] ∧ mainOpened.txDataQueueUse_ = 0 ∧
    (List.replicate 65536 0).length = 65536 ∧
    ¬ ((65536 : Int) < 512 - (mainOpened.txDataQueueUse_ : Int)) ∧
    (mainOpened.txData (List.replicate 65536 0) true).1 = Result.SUCCESS ∧
    (mainOpened.txData (List.replicate 65536 0) true).2.txQueue_ = [List.replicate 65536 0] ∧
    (mainOpened.txData (List.replicate 65536 0) true).2.txDataQueueUse_ = 0 := by
  have h := txData_of_length_65536 (List.replicate 65536 0) (List.length_replicate _ _)
  refine ⟨rfl, rfl, rfl, List.length_replicate _ _, by decide, ?_, ?_, ?_⟩
  · rw [h]
  · rw [h]
  · rw [h]; rfl

/-- The boundary of the byte test: with room `512 - txDataQueueUse_`, a buffer
of exactly that size is rejected and a buffer one byte shorter is admitted. -/
theorem txData_boundary (s : ComPort) (data : List Nat)
    (hopen : s.isOpen_ = true) (hsize : s.txDataQueueSize_ = 512)
    (helems : s.txOverlappedQueueSize_ = 5) (hq : s.txQueue_.length ≠ 5)
    (huse : s.txDataQueueUse_ ≤ 512) :
    (data.length = 512 - s.txDataQueueUse_ →
      (s.txData data true).1 = Result.ERROR_TX_QUEUE_FULL) ∧
    (data.length + 1 = 512 - s.txDataQueueUse_ →
      (s.txData data true).1 = Result.SUCCESS) := by
  constructor
  · intro h
    rw [txData_result_of_small s data true hsize helems (by omega)]
    have : ¬ ((data.length : Int) < 512 - (s.txDataQueueUse_ : Int)) := by omega
    simp [hopen, this]
  · intro h
    rw [txData_result_of_small s data true hsize helems (by omega)]
    have : ((data.length : Int) < 512 - (s.txDataQueueUse_ : Int)) := by omega
    simp [hopen, this, hq]

set_option maxRecDepth 20000 in
/-- From the freshly opened controller, with no pass of the worker in between,
five calls with 100-byte buffers are all admitted and a sixth call with any
buffer returns `ERROR_TX_QUEUE_FULL`. -/
theorem txData_five_then_full (data : List Nat) (createEventOk : Bool) :
    (Sys.run (Sys.opened mainOpened)
      (List.replicate 5 (Action.txData (List.replicate 100 0) true))).admitted =
      List.replicate 5 (List.replicate 100 0) ∧
    ((Sys.run (Sys.opened mainOpened)
      (List.replicate 5 (Action.txData (List.replicate 100 0) true))).port.txData
        data createEventOk).1 = Result.ERROR_TX_QUEUE_FULL := by
  have h : Sys.run (Sys.opened mainOpened)
      (List.replicate 5 (Action.txData (List.replicate 100 0) true)) =
        { port := { mainOpened with
            txQueue_ := List.replicate 5 (List.replicate 100 0)
            txDataQueueUse_ := 500
            isReleaseTxDataThread_ := true }
          txAlive := true
          admitted := List.replicate 5 (List.replicate 100 0)
          written := []
          fired := [] } := by
    rfl
  rw [h]
  refine ⟨rfl, ?_⟩
  simp [ComPort.txData, mainOpened_eq, mainPort, ComPort.ctor]

/-! ## The Tx worker: fatal writes and the wake flag -/

/-- The write part reaches the statement after it only with `isShutdown`
still false. -/
theorem writeFrame_next (w : WriteOutcome) (size : Nat) (b : Bool)
    (h : writeFrame w size = Flow.next b) : b = false := by
  cases w with
  | completed cnt =>
    simp only [writeFrame] at h
    split_ifs at h
    injection h with h
    exact h.symm
  | error => simp [writeFrame] at h
  | pending waitOk fetchOk cnt =>
    simp only [writeFrame] at h
    split_ifs at h
    injection h with h
    exact h.symm

/-- No pass of the Tx worker loop invokes a callback, whatever the state and
whatever the write reports. -/
theorem doTxDataIter_fired (s : ComPort) (signalled : Bool) (w : WriteOutcome) :
    (doTxDataIter s signalled w).fired = [] := by
  unfold doTxDataIter
  split_ifs
  · rfl
  · rfl
  · cases hq : s.txQueue_ with
    | nil => simp [hq]
    | cons data rest =>
      simp only [hq]
      cases hw : writeFrame w data.length with
      | brk b => simp
      | next b => simp [writeFrame_next w _ b hw]

/-- A write is fatal when the count differs from the size, when the wait or the
fetch of a pending write fails, or when `WriteFile` fails outright; every such
write leaves the loop by `break`. -/
theorem writeFrame_fatal (w : WriteOutcome) (size : Nat) :
    writeFrame w size = Flow.brk true ↔
      (w = WriteOutcome.error ∨
       (∃ cnt, w = WriteOutcome.completed cnt ∧ cnt ≠ size) ∨
       (∃ waitOk fetchOk cnt, w = WriteOutcome.pending waitOk fetchOk cnt ∧
          (waitOk = false ∨ fetchOk = false ∨ cnt ≠ size))) := by
  cases w with
  | completed cnt => by_cases h : cnt = size <;> simp [writeFrame, h]
  | error => simp [writeFrame]
  | pending waitOk fetchOk cnt =>
    by_cases h : cnt = size <;> cases waitOk <;> cases fetchOk <;> simp [writeFrame, h]

/-- The Rx worker, on a fatal read of an open port, invokes the shutdown
callbacks in registry order and ends. -/
theorem doRxDataIter_fatal (s : ComPort) (hopen : s.isOpen_ = true) :
    doRxDataIter s ReadOutcome.error = ⟨s, true, s.shutdownCallbacks_⟩ ∧
    (∀ fetchOk byte, doRxDataIter s (ReadOutcome.pending false fetchOk byte) =
      ⟨s, true, s.shutdownCallbacks_⟩) ∧
    (∀ byte, doRxDataIter s (ReadOutcome.pending true false byte) =
      ⟨s, true, s.shutdownCallbacks_⟩) := by
  simp [doRxDataIter, hopen]

/-- C2, the code at the failing input: on the opened controller of `main` with
the shutdown callback 7 subscribed and the frame [1, 2, 3] queued, a write that
completes at once with 2 of 3 bytes makes the pass of the Tx worker hand the
frame to the device and leave the loop, but the pass invokes no callback:
callback 7 is registered and is not called. -/
theorem doTxData_short_write_fires_nothing :
    ((mainOpened.setSubscribeOnEvent Event.SHUTDOWN 7).txData [1, 2, 3] true).2.shutdownCallbacks_
      = [7] ∧
    ((mainOpened.setSubscribeOnEvent Event.SHUTDOWN 7).txData [1, 2, 3] true).2.txQueue_
      = [[1, 2, 3]] ∧
    writeFrame (WriteOutcome.completed 2) 3 = Flow.brk true ∧
    (doTxDataIter ((mainOpened.setSubscribeOnEvent Event.SHUTDOWN 7).txData [1, 2, 3] true).2
      false (WriteOutcome.completed 2)).written = some [1, 2, 3] ∧
    (doTxDataIter ((mainOpened.setSubscribeOnEvent Event.SHUTDOWN 7).txData [1, 2, 3] true).2
      false (WriteOutcome.completed 2)).status = TxStatus.finished ∧
    (doTxDataIter ((mainOpened.setSubscribeOnEvent Event.SHUTDOWN 7).txData [1, 2, 3] true).2
      false (WriteOutcome.completed 2)).fired = [] := by
  decide

/-- C3, the code at the failing input: from the freshly opened controller of
`main`, two admitted `txData` calls followed by one pass of the Tx worker whose
write succeeds leave the wake flag clear while the frame [2] is still queued;
the worker is alive and its next pass blocks on the condition variable, so
frame [2] is not dequeued until some later call sets the flag. -/
theorem tx_wake_flag_clear_with_frame_queued :
    (Sys.run (Sys.opened mainOpened)
      [Action.txData [1] true, Action.txData [2] true,
       Action.txWorker false (WriteOutcome.completed 1)]).admitted = [[1], [2]] ∧
    (Sys.run (Sys.opened mainOpened)
      [Action.txData [1] true, Action.txData [2] true,
       Action.txWorker false (WriteOutcome.completed 1)]).written = [[1]] ∧
    (Sys.run (Sys.opened mainOpened)
      [Action.txData [1] true, Action.txData [2] true,
       Action.txWorker false (WriteOutcome.completed 1)]).txAlive = true ∧
    (Sys.run (Sys.opened mainOpened)
      [Action.txData [1] true, Action.txData [2] true,
       Action.txWorker false (WriteOutcome.completed 1)]).port.isOpen_ = true ∧
    (Sys.run (Sys.opened mainOpened)
      [Action.txData [1] true, Action.txData [2] true,
       Action.txWorker false (WriteOutcome.completed 1)]).port.isReleaseTxDataThread_ = false ∧
    (Sys.run (Sys.opened mainOpened)
      [Action.txData [1] true, Action.txData [2] true,
       Action.txWorker false (WriteOutcome.completed 1)]).port.txQueue_ = [[2]] ∧
    (∀ w, (doTxDataIter (Sys.run (Sys.opened mainOpened)
      [Action.txData [1] true, Action.txData [2] true,
       Action.txWorker false (WriteOutcome.completed 1)]).port false w).status
        = TxStatus.blocked) := by
  refine ⟨by decide, by decide, by decide, by decide, by decide, by decide, ?_⟩
  intro w
  rfl

/-! ## The Rx queue -/

/-- The loop of `rxData` takes the first `count` bytes of the queue, in order,
to the back of the vector and leaves the rest. -/
theorem rxDataLoop_eq (q data : List Nat) (count : Nat) :
    rxDataLoop q data count = (q.drop count, data ++ q.take count) := by
  induction count generalizing q data with
  | zero => cases q <;> simp [rxDataLoop]
  | succ n ih =>
    cases q with
    | nil => simp [rxDataLoop]
    | cons b q => simp [rxDataLoop, ih]

/-- Taking `min count |q|` elements of `q` is taking `count` elements. -/
theorem take_min_length (q : List Nat) (count : Nat) :
    q.take (min count q.length) = q.take count := by
  rcases Nat.le_total count q.length with h | h
  · rw [Nat.min_eq_left h]
  · rw [Nat.min_eq_right h, List.take_length, List.take_of_length_le h]

/-- Dropping `min count |q|` elements of `q` is dropping `count` elements. -/
theorem drop_min_length (q : List Nat) (count : Nat) :
    q.drop (min count q.length) = q.drop count := by
  rcases Nat.le_total count q.length with h | h
  · rw [Nat.min_eq_left h]
  · rw [Nat.min_eq_right h, List.drop_length, List.drop_of_length_le h]

/-- The state and the vector that `rxData` leaves: the queue without its first
`count` bytes, the vector with those bytes appended. -/
theorem rxData_eq (s : ComPort) (d : List Nat) (count : Nat) :
    s.rxData d count = ({ s with rxQueue_ := s.rxQueue_.drop count }, d ++ s.rxQueue_.take count) := by
  simp only [ComPort.rxData, rxDataLoop_eq]

/-- C5: `rxData(d, c)` leaves `d` followed by the first `min(c, |q|)` bytes of
the Rx queue `q`, in order, in the vector, leaves the other bytes of `q`, in
order, in the queue and changes no other field; the vector grows by
`min(c, |q|)` bytes, which is at most `c` and at most `|q|`. -/
theorem rxData_pops_front (s : ComPort) (d : List Nat) (c : Nat) :
    (s.rxData d c).2 = d ++ s.rxQueue_.take (min c s.rxQueue_.length) ∧
    (s.rxData d c).1 = { s with rxQueue_ := s.rxQueue_.drop (min c s.rxQueue_.length) } ∧
    (s.rxData d c).1.rxQueue_.length = s.rxQueue_.length - min c s.rxQueue_.length ∧
    (s.rxData d c).2.length = d.length + min c s.rxQueue_.length ∧
    (s.rxData d c).2.length - d.length ≤ c ∧
    (s.rxData d c).2.length - d.length ≤ s.rxQueue_.length := by
  have h1 : (s.rxData d c).2 = d ++ s.rxQueue_.take (min c s.rxQueue_.length) := by
    rw [rxData_eq, take_min_length]
  have h2 : (s.rxData d c).1 =
      { s with rxQueue_ := s.rxQueue_.drop (min c s.rxQueue_.length) } := by
    rw [rxData_eq, drop_min_length]
  have h3 : (s.rxData d c).2.length = d.length + min c s.rxQueue_.length := by
    rw [h1, List.length_append, List.length_take]
    simp
  refine ⟨h1, h2, ?_, h3, ?_, ?_⟩
  · rw [h2]; simp
  · rw [h3]; omega
  · rw [h3]; omega

/-- The push step below capacity appends the byte; at capacity it changes
nothing. No other field is touched. -/
theorem rxPush_cases (s : ComPort) (b : Nat) (hsize : s.rxQueueSize_ = 512) :
    (s.rxQueue_.length < 512 → s.rxPush b = { s with rxQueue_ := s.rxQueue_ ++ [b] }) ∧
    (s.rxQueue_.length = 512 → s.rxPush b = s) := by
  constructor
  · intro h
    have : s.rxQueue_.length ≠ 512 := by omega
    simp [ComPort.rxPush, hsize, this]
  · intro h
    simp [ComPort.rxPush, hsize, h]

/-- A step on the receive side keeps the invariant. -/
theorem RxSys.inv_step (σ : RxSys) (a : RxAction) (h : σ.inv) : (σ.step a).inv := by
  obtain ⟨hsize, hlen, hsub⟩ := h
  cases a with
  | byte b =>
    rcases Nat.lt_or_ge σ.port.rxQueue_.length 512 with hlt | hge
    · have hp := (rxPush_cases σ.port b hsize).1 hlt
      refine ⟨?_, ?_, ?_⟩
      · simp [RxSys.step, hp, hsize]
      · simp [RxSys.step, hp]; omega
      · simp only [RxSys.step, hp, ← List.append_assoc]
        exact List.Sublist.append hsub (List.Sublist.refl _)
    · have hp := (rxPush_cases σ.port b hsize).2 (by omega)
      refine ⟨?_, ?_, ?_⟩
      · simp [RxSys.step, hp, hsize]
      · simp [RxSys.step, hp, hlen]
      · simp only [RxSys.step, hp]
        exact hsub.trans (List.sublist_append_left _ _)
  | read count =>
    have hr := rxData_eq σ.port σ.out count
    refine ⟨?_, ?_, ?_⟩
    · simp [RxSys.step, hr, hsize]
    · simp only [RxSys.step, hr, List.length_drop]; omega
    · simp only [RxSys.step, hr, List.append_assoc, List.take_append_drop]
      exact hsub

/-- A run on the receive side keeps the invariant. -/
theorem RxSys.inv_run (acts : List RxAction) (σ : RxSys) (h : σ.inv) : (σ.run acts).inv := by
  induction acts generalizing σ with
  | nil => exact h
  | cons a acts ih => exact ih (σ.step a) (RxSys.inv_step σ a h)

/-- Pushing a list of bytes into a queue of capacity 512 keeps the first 512
bytes of the old content followed by the new bytes. -/
theorem rxPushAll_queue (bytes : List Nat) (s : ComPort) (hsize : s.rxQueueSize_ = 512)
    (hlen : s.rxQueue_.length ≤ 512) :
    (rxPushAll s bytes).rxQueue_ = (s.rxQueue_ ++ bytes).take 512 := by
  induction bytes generalizing s with
  | nil => simp [rxPushAll, List.take_of_length_le hlen]
  | cons b bytes ih =>
    have hstep : rxPushAll s (b :: bytes) = rxPushAll (s.rxPush b) bytes := rfl
    rw [hstep]
    rcases Nat.lt_or_ge s.rxQueue_.length 512 with hlt | hge
    · have hp := (rxPush_cases s b hsize).1 hlt
      rw [ih (s.rxPush b) (by simp [hp, hsize]) (by simp [hp]; omega), hp]
      simp
    · have h512 : s.rxQueue_.length = 512 := by omega
      have hp := (rxPush_cases s b hsize).2 h512
      rw [hp, ih s hsize hlen]
      rw [List.take_append_of_le_length (by omega), List.take_append_of_le_length (by omega)]

/-- C4: with capacity 512 the push step of the Rx worker appends the byte when
fewer than 512 bytes are queued and changes nothing when 512 are queued; from
an empty queue, after any interleaving of received bytes and `rxData` calls,
at most 512 bytes are queued and the bytes delivered followed by the bytes
queued form a subsequence of the bytes received, in arrival order; with no
`rxData` call the queue holds exactly the first `min(n, 512)` of the `n` bytes
received, and `getRxDataCount` returns 512 after 600 bytes. -/
theorem rx_queue_bounded_drop_tail (s : ComPort) (hsize : s.rxQueueSize_ = 512) :
    (∀ b, s.rxQueue_.length < 512 → s.rxPush b = { s with rxQueue_ := s.rxQueue_ ++ [b] }) ∧
    (∀ b, s.rxQueue_.length = 512 → s.rxPush b = s) ∧
    (s.rxQueue_ = [] → ∀ acts : List RxAction,
      (RxSys.run ⟨s, [], []⟩ acts).port.rxQueue_.length ≤ 512 ∧
      ((RxSys.run ⟨s, [], []⟩ acts).out ++ (RxSys.run ⟨s, [], []⟩ acts).port.rxQueue_).Sublist
        (RxSys.run ⟨s, [], []⟩ acts).arrived) ∧
    (s.rxQueue_ = [] → ∀ bytes : List Nat,
      (rxPushAll s bytes).rxQueue_ = bytes.take (min bytes.length 512) ∧
      (bytes.length = 600 → (rxPushAll s bytes).getRxDataCount = 512)) := by
  refine ⟨fun b => (rxPush_cases s b hsize).1, fun b => (rxPush_cases s b hsize).2, ?_, ?_⟩
  · intro hq acts
    have h := RxSys.inv_run acts ⟨s, [], []⟩ ⟨hsize, by simp [hq], by simp [hq]⟩
    exact ⟨h.2.1, h.2.2⟩
  · intro hq bytes
    have h := rxPushAll_queue bytes s hsize (by simp [hq])
    rw [hq, List.nil_append] at h
    have hmin : bytes.take (min bytes.length 512) = bytes.take 512 := by
      rw [Nat.min_comm]; exact take_min_length bytes 512
    refine ⟨by rw [h, hmin], ?_⟩
    intro h600
    simp [ComPort.getRxDataCount, u16, h, List.length_take, h600]

/-- C4 at the controller of `main`: after the 600 bytes 0, 1, ..., 599 and no
`rxData` call, `getRxDataCount` returns 512 and the queue holds 0, ..., 511. -/
theorem rx_queue_bounded_drop_tail_witness :
    mainOpened.rxQueueSize_ = 512 ∧ mainOpened.rxQueue_ = [] ∧
    (rxPushAll mainOpened (List.range 600)).getRxDataCount = 512 ∧
    (rxPushAll mainOpened (List.range 600)).rxQueue_ =
      (List.range 600).take (min (List.range 600).length 512) :=
  ⟨rfl, rfl,
    ((rx_queue_bounded_drop_tail mainOpened rfl).2.2.2 rfl (List.range 600)).2
      (List.length_range 600),
    ((rx_queue_bounded_drop_tail mainOpened rfl).2.2.2 rfl (List.range 600)).1⟩

/-! ## Configuration setters -/

/-- C6, counterexample: on the closed controller of `main`, `setPortNum(0)`
returns failure and the port number stays 2, where the claim has every setter
succeed on a closed connection and the getter return the value passed. -/
theorem setPortNum_zero_fails_closed :
    mainPort.isOpen_ = false ∧ (mainPort.setPortNum 0).1 = false ∧
    (mainPort.setPortNum 0).2.getPortNum = 2 := by
  decide

/-- C6, amended: while the connection is open each of the five setters returns
failure and leaves the controller unchanged, for every argument; while it is
closed, `setPortNum(0)` returns failure and leaves the controller unchanged,
and `setPortNum` with a non-zero argument and the other four setters with any
argument return success, change only their own field, and the matching getter
then returns the value passed. -/
theorem setters_guarded (s : ComPort) :
    (s.isOpen_ = true →
      (∀ p, s.setPortNum p = (false, s)) ∧
      (∀ b, s.setBaudrate b = (false, s)) ∧
      (∀ w, s.setWordLength w = (false, s)) ∧
      (∀ b, s.setStopBits b = (false, s)) ∧
      (∀ p, s.setParity p = (false, s))) ∧
    (s.isOpen_ = false →
      s.setPortNum 0 = (false, s) ∧
      (∀ p, p ≠ 0 → s.setPortNum p = (true, { s with portNum_ := p }) ∧
        (s.setPortNum p).2.getPortNum = p) ∧
      (∀ b, s.setBaudrate b = (true, { s with baudrate_ := b }) ∧
        (s.setBaudrate b).2.getBaudrate = b) ∧
      (∀ w, s.setWordLength w = (true, { s with wordLength_ := w }) ∧
        (s.setWordLength w).2.getWordLength = w) ∧
      (∀ b, s.setStopBits b = (true, { s with stopBits_ := b }) ∧
        (s.setStopBits b).2.getStopBits = b) ∧
      (∀ p, s.setParity p = (true, { s with parity_ := p }) ∧
        (s.setParity p).2.getParity = p)) := by
  constructor
  · intro hopen
    simp [ComPort.setPortNum, ComPort.setBaudrate, ComPort.setWordLength, ComPort.setStopBits,
      ComPort.setParity, hopen]
  · intro hclosed
    refine ⟨?_, ?_, ?_, ?_, ?_, ?_⟩
    · simp [ComPort.setPortNum]
    · intro p hp
      simp [ComPort.setPortNum, ComPort.getPortNum, hclosed, hp]
    · intro b
      simp [ComPort.setBaudrate, ComPort.getBaudrate, hclosed]
    · intro w
      simp [ComPort.setWordLength, ComPort.getWordLength, hclosed]
    · intro b
      simp [ComPort.setStopBits, ComPort.getStopBits, hclosed]
    · intro p
      simp [ComPort.setParity, ComPort.getParity, hclosed]

/-- C6, amended, at the controller of `main`: open, `setBaudrate` is refused;
closed, `setPortNum(3)` is stored and read back. -/
theorem setters_guarded_witness :
    mainOpened.isOpen_ = true ∧ mainPort.isOpen_ = false ∧
    mainOpened.setBaudrate Baudrate._9600 = (false, mainOpened) ∧
    (mainPort.setPortNum 3).2.getPortNum = 3 :=
  ⟨rfl, rfl, ((setters_guarded mainOpened).1 rfl).2.1 Baudrate._9600,
    (((setters_guarded mainPort).2 rfl).2.1 3 (by decide)).2⟩

/-! ## close -/

/-- C7: from every state, after `close` the state flag is false and both queues
are empty, and a second `close` leaves the state reached by the first
unchanged; `close` keeps the configuration, the registries and the byte
counter as they were. -/
theorem close_idempotent (s : ComPort) :
    s.close.isOpen = false ∧ s.close.rxQueue_ = [] ∧ s.close.txQueue_ = [] ∧
    s.close.close = s.close ∧
    s.close.portNum_ = s.portNum_ ∧ s.close.baudrate_ = s.baudrate_ ∧
    s.close.wordLength_ = s.wordLength_ ∧ s.close.stopBits_ = s.stopBits_ ∧
    s.close.parity_ = s.parity_ ∧
    s.close.rxDataCallbacks_ = s.rxDataCallbacks_ ∧
    s.close.shutdownCallbacks_ = s.shutdownCallbacks_ ∧
    s.close.txDataQueueUse_ = s.txDataQueueUse_ :=
  ⟨rfl, rfl, rfl, rfl, rfl, rfl, rfl, rfl, rfl, rfl, rfl, rfl⟩

/-! ## Callback registries -/

/-- The search loop finds `h` exactly when `h` is an entry. -/
theorem hasCallback_iff (l : List Nat) (h : Nat) : hasCallback l h = true ↔ h ∈ l := by
  induction l with
  | nil => simp [hasCallback]
  | cons i rest ih =>
    by_cases hi : i = h
    · simp [hasCallback, hi]
    · have hne : ¬ h = i := fun e => hi e.symm
      simp [hasCallback, hi, hne, ih]

/-- The erase loop removes the first entry equal to `h`. -/
theorem eraseCallback_eq (l : List Nat) (h : Nat) : eraseCallback l h = l.erase h := by
  induction l with
  | nil => simp [eraseCallback]
  | cons i rest ih =>
    by_cases hi : i = h
    · simp [eraseCallback, hi]
    · simp [eraseCallback, List.erase_cons, hi, ih]

/-- The subscribe step keeps a registry free of duplicates. -/
theorem subscribe_nodup (l : List Nat) (h : Nat) (hl : l.Nodup) : (subscribe l h).Nodup := by
  unfold subscribe
  split_ifs with hc
  · exact hl
  · have hn : h ∉ l := fun hm => hc ((hasCallback_iff l h).2 hm)
    rw [List.nodup_append]
    refine ⟨hl, List.nodup_singleton h, ?_⟩
    intro a ha hb
    rw [List.mem_singleton] at hb
    exact hn (hb ▸ ha)

/-- The erase loop keeps a registry free of duplicates. -/
theorem eraseCallback_nodup (l : List Nat) (h : Nat) (hl : l.Nodup) :
    (eraseCallback l h).Nodup := by
  rw [eraseCallback_eq]
  exact hl.erase h

/-- Deleting an address other than null twice in a row is undefined. -/
theorem deleteCallback_twice (heap : List Nat) (h : Nat) (h0 : h ≠ 0) :
    ∀ heap1, deleteCallback heap h = some heap1 → deleteCallback heap1 h = none := by
  intro heap1 hd
  unfold deleteCallback at hd
  simp only [beq_iff_eq, h0, if_false] at hd
  split_ifs at hd with hc
  injection hd with hd
  subst hd
  simp [deleteCallback, h0]

/-- A subscribe call with a handle that is not in the registry is defined, does
not touch the free store and appends the handle at the end of that registry;
the other registry stays as it was. -/
theorem Program.set_fresh (p : Program) (event : Event) (h : Nat)
    (hn : h ∉ p.port.callbacks event) :
    p.setSubscribeOnEvent event h = some ⟨p.port.setSubscribeOnEvent event h, p.heap⟩ ∧
    (p.port.setSubscribeOnEvent event h).callbacks event = p.port.callbacks event ++ [h] ∧
    (∀ other, other ≠ event →
      (p.port.setSubscribeOnEvent event h).callbacks other = p.port.callbacks other) := by
  have hc : hasCallback (p.port.callbacks event) h = false := by
    cases hx : hasCallback (p.port.callbacks event) h
    · rfl
    · exact absurd ((hasCallback_iff _ h).1 hx) hn
  refine ⟨by simp [Program.setSubscribeOnEvent, hc], ?_, ?_⟩
  · cases event <;>
      simp_all [ComPort.setSubscribeOnEvent, ComPort.callbacks, subscribe]
  · intro other ho
    cases event <;> cases other <;>
      simp_all [ComPort.setSubscribeOnEvent, ComPort.callbacks]

/-- A subscribe call with a handle that is in the registry leaves every field
of the controller as it was and deletes the object at that address: when the
object was allocated, the entry the registry keeps points to a deleted
object afterwards; when it was not, the call is undefined. -/
theorem Program.set_present (p : Program) (event : Event) (h : Nat) (h0 : h ≠ 0)
    (hm : h ∈ p.port.callbacks event) :
    p.port.setSubscribeOnEvent event h = p.port ∧
    (h ∈ p.heap → p.setSubscribeOnEvent event h =
      some ⟨p.port, p.heap.filter (fun a => a != h)⟩ ∧
      h ∉ p.heap.filter (fun a => a != h)) ∧
    (h ∉ p.heap → p.setSubscribeOnEvent event h = none) := by
  have hc := (hasCallback_iff _ h).2 hm
  have hport : p.port.setSubscribeOnEvent event h = p.port := by
    cases event <;>
      simp_all [ComPort.setSubscribeOnEvent, ComPort.callbacks, subscribe]
  refine ⟨hport, ?_, ?_⟩
  · intro hl
    refine ⟨?_, by simp⟩
    simp [Program.setSubscribeOnEvent, hc, deleteCallback, h0, hl, hport]
  · intro hl
    simp [Program.setSubscribeOnEvent, hc, deleteCallback, h0, hl]

/-- An unsubscribe call with a handle other than null that is in the registry
is undefined: the erased entry and the parameter delete the same address. -/
theorem Program.reset_present (p : Program) (event : Event) (h : Nat) (h0 : h ≠ 0)
    (hm : h ∈ p.port.callbacks event) : p.resetSubscribeOnEvent event h = none := by
  have hc := (hasCallback_iff _ h).2 hm
  unfold Program.resetSubscribeOnEvent
  rw [if_pos hc]
  cases hd : deleteCallback p.heap h with
  | none => rfl
  | some heap1 => simp [deleteCallback_twice p.heap h h0 heap1 hd]

/-- An unsubscribe call with a handle that is not in the registry leaves every
field of the controller as it was and deletes the object of the parameter. -/
theorem Program.reset_absent (p : Program) (event : Event) (h : Nat)
    (hn : h ∉ p.port.callbacks event) :
    p.resetSubscribeOnEvent event h =
      (deleteCallback p.heap h).map (fun heap1 => ⟨p.port, heap1⟩) := by
  have hc : hasCallback (p.port.callbacks event) h = false := by
    cases hx : hasCallback (p.port.callbacks event) h
    · rfl
    · exact absurd ((hasCallback_iff _ h).1 hx) hn
  unfold Program.resetSubscribeOnEvent
  simp only [hc, Bool.false_eq_true, if_false]
  cases deleteCallback p.heap h <;> rfl

/-- With the null pointer as handle both calls are defined and follow the set
semantics: subscribe keeps or appends the null entry, unsubscribe removes the
first null entry, and the free store is not touched. -/
theorem Program.null_handle (p : Program) (event : Event) :
    p.setSubscribeOnEvent event 0 = some ⟨p.port.setSubscribeOnEvent event 0, p.heap⟩ ∧
    p.resetSubscribeOnEvent event 0 = some ⟨p.port.eraseEntry event 0, p.heap⟩ := by
  constructor
  · unfold Program.setSubscribeOnEvent
    split_ifs <;> simp [deleteCallback]
  · unfold Program.resetSubscribeOnEvent
    split_ifs with hc
    · simp [deleteCallback]
    · have hn : (0 : Nat) ∉ p.port.callbacks event := fun hm => hc ((hasCallback_iff _ 0).2 hm)
      have he : p.port.eraseEntry event 0 = p.port := by
        cases event
        · have : p.port.rxDataCallbacks_.erase 0 = p.port.rxDataCallbacks_ :=
            List.erase_of_not_mem (by simpa [ComPort.callbacks] using hn)
          simp [ComPort.eraseEntry, eraseCallback_eq, this]
        · have : p.port.shutdownCallbacks_.erase 0 = p.port.shutdownCallbacks_ :=
            List.erase_of_not_mem (by simpa [ComPort.callbacks] using hn)
          simp [ComPort.eraseEntry, eraseCallback_eq, this]
      simp [deleteCallback, he]

/-- The fields a defined subscribe call leaves are those of
`ComPort.setSubscribeOnEvent`. -/
theorem Program.set_port (p q : Program) (event : Event) (h : Nat)
    (hq : p.setSubscribeOnEvent event h = some q) :
    q.port = p.port.setSubscribeOnEvent event h := by
  unfold Program.setSubscribeOnEvent at hq
  split_ifs at hq
  · cases hd : deleteCallback p.heap h with
    | none => simp [hd] at hq
    | some heap1 =>
      simp only [hd, Option.some.injEq] at hq
      rw [← hq]
  · simp only [Option.some.injEq] at hq
    rw [← hq]

/-- The fields a defined unsubscribe call leaves: the registry without the
first entry for the handle, or the fields as they were. -/
theorem Program.reset_port (p q : Program) (event : Event) (h : Nat)
    (hq : p.resetSubscribeOnEvent event h = some q) :
    q.port = p.port.eraseEntry event h ∨ q.port = p.port := by
  unfold Program.resetSubscribeOnEvent at hq
  split_ifs at hq
  · cases hd : deleteCallback p.heap h with
    | none => simp [hd] at hq
    | some heap1 =>
      cases hd2 : deleteCallback heap1 h with
      | none => simp [hd, hd2] at hq
      | some heap2 =>
        simp only [hd, hd2, Option.some.injEq] at hq
        left
        rw [← hq]
  · cases hd : deleteCallback p.heap h with
    | none => simp [hd] at hq
    | some heap1 =>
      simp only [hd, Option.some.injEq] at hq
      right
      rw [← hq]

/-- Every defined subscribe or unsubscribe call keeps both registries free of
duplicates. -/
theorem Program.regStep_nodup (p q : Program) (a : RegAction) (hq : p.regStep a = some q)
    (hrx : p.port.rxDataCallbacks_.Nodup) (hsh : p.port.shutdownCallbacks_.Nodup) :
    q.port.rxDataCallbacks_.Nodup ∧ q.port.shutdownCallbacks_.Nodup := by
  cases a with
  | set event callback =>
    rw [Program.set_port p q event callback hq]
    cases event
    · exact ⟨subscribe_nodup _ _ hrx, hsh⟩
    · exact ⟨hrx, subscribe_nodup _ _ hsh⟩
  | reset event callback =>
    rcases Program.reset_port p q event callback hq with h | h
    · rw [h]
      cases event
      · exact ⟨eraseCallback_nodup _ _ hrx, hsh⟩
      · exact ⟨hrx, eraseCallback_nodup _ _ hsh⟩
    · rw [h]
      exact ⟨hrx, hsh⟩

/-- Every defined run of subscribe and unsubscribe calls keeps both registries
free of duplicates. -/
theorem Program.regRun_nodup (acts : List RegAction) (p q : Program)
    (hq : p.regRun acts = some q)
    (hrx : p.port.rxDataCallbacks_.Nodup) (hsh : p.port.shutdownCallbacks_.Nodup) :
    q.port.rxDataCallbacks_.Nodup ∧ q.port.shutdownCallbacks_.Nodup := by
  induction acts generalizing p with
  | nil =>
    simp only [Program.regRun, Option.some.injEq] at hq
    rw [← hq]
    exact ⟨hrx, hsh⟩
  | cons a acts ih =>
    cases hs : p.regStep a with
    | none => simp [Program.regRun, hs] at hq
    | some r =>
      simp only [Program.regRun, hs] at hq
      have h := Program.regStep_nodup p r a hs hrx hsh
      exact ih r hq h.1 h.2

/-- C8, the code at the failing input: on the controller of `main` with one
`Callback` allocated at address 7, the first `setSubscribeOnEvent(SHUTDOWN, 7)`
gives the registry [7] and keeps the object. A second subscribe of the same
handle leaves the registry [7] but deletes the object, so the entry points to
a deleted object; the unsubscribe that follows deletes address 7 again, which
is undefined behaviour, where the claim has it leave an empty registry. An
unsubscribe right after the first subscribe is undefined too: the erased
entry and the parameter both delete address 7. -/
theorem registry_same_handle_is_undefined :
    Program.setSubscribeOnEvent ⟨mainPort, [7]⟩ Event.SHUTDOWN 7 =
      some ⟨mainPort.setSubscribeOnEvent Event.SHUTDOWN 7, [7]⟩ ∧
    (mainPort.setSubscribeOnEvent Event.SHUTDOWN 7).shutdownCallbacks_ = [7] ∧
    Program.setSubscribeOnEvent ⟨mainPort.setSubscribeOnEvent Event.SHUTDOWN 7, [7]⟩
      Event.SHUTDOWN 7 = some ⟨mainPort.setSubscribeOnEvent Event.SHUTDOWN 7, []⟩ ∧
    Program.resetSubscribeOnEvent ⟨mainPort.setSubscribeOnEvent Event.SHUTDOWN 7, []⟩
      Event.SHUTDOWN 7 = none ∧
    Program.regRun ⟨mainPort, [7]⟩
      [RegAction.set Event.SHUTDOWN 7, RegAction.set Event.SHUTDOWN 7,
       RegAction.reset Event.SHUTDOWN 7] = none ∧
    Program.regRun ⟨mainPort, [7]⟩
      [RegAction.set Event.SHUTDOWN 7, RegAction.reset Event.SHUTDOWN 7] = none := by
  decide

/-! ## Tx queue order -/

/-- What one `txData` call does to the queue: a `SUCCESS` appends the buffer,
any other result leaves the controller as it was. -/
theorem txData_queue (s : ComPort) (data : List Nat) (createEventOk : Bool) :
    ((s.txData data createEventOk).1 = Result.SUCCESS ∧
      (s.txData data createEventOk).2.txQueue_ = s.txQueue_ ++ [data] ∧
      (s.txData data createEventOk).2.txDataQueueUse_ =
        u16 (s.txDataQueueUse_ + u16 data.length) ∧
      (s.txData data createEventOk).2.isOpen_ = s.isOpen_) ∨
    ((s.txData data createEventOk).1 ≠ Result.SUCCESS ∧
      (s.txData data createEventOk).2 = s) := by
  unfold ComPort.txData
  split_ifs
  · right; exact ⟨by simp, rfl⟩
  · right; exact ⟨by simp, rfl⟩
  · right; exact ⟨by simp, rfl⟩
  · left; exact ⟨rfl, rfl, rfl, rfl⟩

/-- What one pass of the Tx worker does to the queue: it hands nothing to the
device and leaves the queue and the counter, or it hands over the front buffer,
removes it and subtracts its size from the counter. -/
theorem doTxDataIter_queue (s : ComPort) (signalled : Bool) (w : WriteOutcome) :
    ((doTxDataIter s signalled w).written = none ∧
      (doTxDataIter s signalled w).port.txQueue_ = s.txQueue_ ∧
      (doTxDataIter s signalled w).port.txDataQueueUse_ = s.txDataQueueUse_ ∧
      (doTxDataIter s signalled w).port.isOpen_ = s.isOpen_) ∨
    (∃ data rest, s.txQueue_ = data :: rest ∧
      (doTxDataIter s signalled w).written = some data ∧
      (doTxDataIter s signalled w).port.txQueue_ = rest ∧
      (doTxDataIter s signalled w).port.txDataQueueUse_ =
        u16 (s.txDataQueueUse_ + 65536 - u16 data.length) ∧
      (doTxDataIter s signalled w).port.isOpen_ = s.isOpen_) := by
  unfold doTxDataIter
  split_ifs
  · left; exact ⟨rfl, rfl, rfl, rfl⟩
  · left; exact ⟨rfl, rfl, rfl, rfl⟩
  · cases hq : s.txQueue_ with
    | nil => left; simp [hq]
    | cons data rest =>
      right
      refine ⟨data, rest, rfl, ?_⟩
      simp only [hq]
      cases hw : writeFrame w data.length with
      | brk b => exact ⟨rfl, rfl, rfl, rfl⟩
      | next b =>
        rw [writeFrame_next w _ b hw]
        exact ⟨rfl, rfl, rfl, rfl⟩

/-- A `txData` call or a pass of the Tx worker keeps the FIFO invariant and
the state flag. -/
theorem Sys.fifo_step (σ : Sys) (a : Action) (ha : a.isTx = true) (h : σ.fifo) :
    (σ.step a).fifo ∧ (σ.step a).port.isOpen_ = σ.port.isOpen_ := by
  unfold Sys.fifo at h ⊢
  cases a with
  | openCall dev => simp [Action.isTx] at ha
  | closeCall => simp [Action.isTx] at ha
  | txData data createEventOk =>
    rcases txData_queue σ.port data createEventOk with ⟨h1, h2, _, h4⟩ | ⟨h1, h2⟩
    · simp only [Sys.step, h1, h2, h4]
      simp [← h, List.append_assoc]
    · simp only [Sys.step, h2]
      simp [h1, h]
  | txWorker signalled w =>
    cases hal : σ.txAlive with
    | false => simp [Sys.step, hal, h]
    | true =>
      rcases doTxDataIter_queue σ.port signalled w with
        ⟨h1, h2, _, h4⟩ | ⟨data, rest, hq, h1, h2, _, h4⟩
      · simp [Sys.step, hal, h1, h2, h4, h]
      · simp [Sys.step, hal, h1, h2, h4, ← h, hq]

/-- A run of `txData` calls and passes of the Tx worker keeps the FIFO
invariant and the state flag. -/
theorem Sys.fifo_run (acts : List Action) (σ : Sys) (htx : ∀ a ∈ acts, a.isTx = true)
    (h : σ.fifo) : (σ.run acts).fifo ∧ (σ.run acts).port.isOpen_ = σ.port.isOpen_ := by
  induction acts generalizing σ with
  | nil => exact ⟨h, rfl⟩
  | cons a acts ih =>
    have hs := Sys.fifo_step σ a (htx a (List.mem_cons_self a acts)) h
    have hr := ih (σ.step a) (fun b hb => htx b (List.mem_cons_of_mem a hb)) hs.1
    exact ⟨hr.1, hr.2.trans hs.2⟩

/-- C9: from a controller whose Tx queue is empty, as it is just after `open`,
after every run of `txData` calls and passes of the Tx worker the port is open
exactly if it was, the buffers handed to `WriteFile` followed by the buffers
still queued are the buffers whose `txData` returned `SUCCESS`, in admission
order and unchanged; so the buffers written are an initial segment of the
buffers admitted. -/
theorem tx_frames_keep_admission_order (s : ComPort) (acts : List Action)
    (hq : s.txQueue_ = []) (htx : ∀ a ∈ acts, a.isTx = true) :
    (Sys.run (Sys.opened s) acts).port.isOpen_ = s.isOpen_ ∧
    (Sys.run (Sys.opened s) acts).written ++ (Sys.run (Sys.opened s) acts).port.txQueue_ =
      (Sys.run (Sys.opened s) acts).admitted ∧
    ∃ rest, (Sys.run (Sys.opened s) acts).admitted =
      (Sys.run (Sys.opened s) acts).written ++ rest := by
  have h := Sys.fifo_run acts (Sys.opened s) htx (by simp [Sys.fifo, Sys.opened, hq])
  exact ⟨h.2, h.1, _, h.1.symm⟩

/-- C9 at the controller of `main`: three buffers admitted around two passes of
the worker; [1] and [2, 2] are written, in that order, and [3] is queued. -/
theorem tx_frames_keep_admission_order_witness :
    (Sys.run (Sys.opened mainOpened)
      [Action.txData [1] true, Action.txWorker false (WriteOutcome.completed 1),
       Action.txData [2, 2] true, Action.txData [3] true,
       Action.txWorker false (WriteOutcome.pending true true 2)]).written = [[1], [2, 2]] ∧
    (Sys.run (Sys.opened mainOpened)
      [Action.txData [1] true, Action.txWorker false (WriteOutcome.completed 1),
       Action.txData [2, 2] true, Action.txData [3] true,
       Action.txWorker false (WriteOutcome.pending true true 2)]).written ++
    (Sys.run (Sys.opened mainOpened)
      [Action.txData [1] true, Action.txWorker false (WriteOutcome.completed 1),
       Action.txData [2, 2] true, Action.txData [3] true,
       Action.txWorker false (WriteOutcome.pending true true 2)]).port.txQueue_ =
    (Sys.run (Sys.opened mainOpened)
      [Action.txData [1] true, Action.txWorker false (WriteOutcome.completed 1),
       Action.txData [2, 2] true, Action.txData [3] true,
       Action.txWorker false (WriteOutcome.pending true true 2)]).admitted :=
  ⟨by decide,
    (tx_frames_keep_admission_order mainOpened
      [Action.txData [1] true, Action.txWorker false (WriteOutcome.completed 1),
       Action.txData [2, 2] true, Action.txData [3] true,
       Action.txWorker false (WriteOutcome.pending true true 2)] rfl (by decide)).2.1⟩

/-! ## The byte counter -/

/-- The sum of the sizes after a frame is appended. -/
theorem queuedBytes_append (q : List (List Nat)) (data : List Nat) :
    queuedBytes (q ++ [data]) = queuedBytes q + data.length := by
  simp [queuedBytes]

/-- The sum of the sizes with a frame in front. -/
theorem queuedBytes_cons (data : List Nat) (rest : List (List Nat)) :
    queuedBytes (data :: rest) = data.length + queuedBytes rest := by
  simp [queuedBytes]

/-- A `txData` call or a pass of the Tx worker keeps the byte counter equal to
the 16-bit sum of the sizes of the queued frames. -/
theorem counterExact_step (σ : Sys) (a : Action) (ha : a.isTx = true)
    (h : σ.port.counterExact) : (σ.step a).port.counterExact := by
  unfold ComPort.counterExact at h ⊢
  cases a with
  | openCall dev => simp [Action.isTx] at ha
  | closeCall => simp [Action.isTx] at ha
  | txData data createEventOk =>
    rcases txData_queue σ.port data createEventOk with ⟨_, h2, h3, _⟩ | ⟨_, h2⟩
    · simp only [Sys.step, h2, h3, queuedBytes_append, h, u16]
      omega
    · simp only [Sys.step, h2, h]
  | txWorker signalled w =>
    cases hal : σ.txAlive with
    | false => simp [Sys.step, hal, h]
    | true =>
      rcases doTxDataIter_queue σ.port signalled w with
        ⟨_, h2, h3, _⟩ | ⟨data, rest, hq, _, h2, h3, _⟩
      · simp [Sys.step, hal, h2, h3, h]
      · rw [hq, queuedBytes_cons] at h
        simp only [Sys.step, hal, if_true, h2, h3, h, u16]
        omega

/-- Along every run of `txData` calls and passes of the Tx worker the byte
counter stays equal to the 16-bit sum of the sizes of the queued frames. -/
theorem counterExact_run (acts : List Action) (σ : Sys) (htx : ∀ a ∈ acts, a.isTx = true)
    (h : σ.port.counterExact) : (σ.run acts).port.counterExact := by
  induction acts generalizing σ with
  | nil => exact h
  | cons a acts ih =>
    exact ih (σ.step a) (fun b hb => htx b (List.mem_cons_of_mem a hb))
      (counterExact_step σ a (htx a (List.mem_cons_self a acts)) h)

set_option maxRecDepth 20000 in
/-- C10, the code at the failing input: construct the controller of `main`,
open it, admit one 100-byte buffer and close. The Tx queue is then empty, so
the sizes of the queued frames sum to 0, but the byte counter is 100; after a
reopen it is still 100, and a 412-byte buffer, which the first open would
admit, is refused with `ERROR_TX_QUEUE_FULL`. -/
theorem close_leaves_byte_counter :
    (Sys.run (Sys.init mainPort)
      [Action.openCall deviceOk, Action.txData (List.replicate 100 0) true,
       Action.closeCall]).port.txQueue_ = [] ∧
    u16 (queuedBytes (Sys.run (Sys.init mainPort)
      [Action.openCall deviceOk, Action.txData (List.replicate 100 0) true,
       Action.closeCall]).port.txQueue_) = 0 ∧
    (Sys.run (Sys.init mainPort)
      [Action.openCall deviceOk, Action.txData (List.replicate 100 0) true,
       Action.closeCall]).port.txDataQueueUse_ = 100 ∧
    (Sys.run (Sys.init mainPort)
      [Action.openCall deviceOk, Action.txData (List.replicate 100 0) true,
       Action.closeCall, Action.openCall deviceOk]).port.isOpen_ = true ∧
    (Sys.run (Sys.init mainPort)
      [Action.openCall deviceOk, Action.txData (List.replicate 100 0) true,
       Action.closeCall, Action.openCall deviceOk]).port.txQueue_ = [] ∧
    (Sys.run (Sys.init mainPort)
      [Action.openCall deviceOk, Action.txData (List.replicate 100 0) true,
       Action.closeCall, Action.openCall deviceOk]).port.txDataQueueUse_ = 100 ∧
    ((Sys.run (Sys.init mainPort)
      [Action.openCall deviceOk, Action.txData (List.replicate 100 0) true,
       Action.closeCall, Action.openCall deviceOk]).port.txData
        (List.replicate 412 0) true).1 = Result.ERROR_TX_QUEUE_FULL ∧
    (mainOpened.txData (List.replicate 412 0) true).1 = Result.SUCCESS := by
  refine ⟨rfl, rfl, rfl, rfl, rfl, rfl, ?_, ?_⟩
  · have h : (Sys.run (Sys.init mainPort)
      [Action.openCall deviceOk, Action.txData (List.replicate 100 0) true,
       Action.closeCall, Action.openCall deviceOk]).port =
        { mainOpened with txDataQueueUse_ := 100 } := by
      rfl
    rw [h, txData_result_of_small _ _ _ rfl rfl (by simp)]
    simp [mainOpened_eq, mainPort, ComPort.ctor]
  · rw [txData_result_of_small _ _ _ rfl rfl (by simp)]
    simp [mainOpened_eq, mainPort, ComPort.ctor]

/-! ## The end detector -/

/-- A call of `detectEnd` returns true exactly in state `D` on the byte 0x44. -/
theorem detectEnd_true_iff (st : DetectEndState) (b : Nat) :
    (detectEnd st b).1 = true ↔ st = DetectEndState.D ∧ b = 0x44 := by
  cases st <;> by_cases h : b = 0x44 <;> simp [detectEnd, DetectEndState.toByte, h] <;>
    split_ifs <;> simp

/-- One pass of the loop body of `main` keeps what the loop knows. -/
theorem scanInv_step (seen : List Nat) (p : DetectEndState × Bool) (i : Nat)
    (h : scanInv seen p) : scanInv (seen ++ [i]) (mainScanStep p i) := by
  obtain ⟨st, found⟩ := p
  obtain ⟨h1, h2⟩ := h
  cases found with
  | true =>
    obtain ⟨pre, post, hs⟩ := h1 rfl
    refine ⟨fun _ => ⟨pre, post ++ [i], by simp [hs]⟩, ?_⟩
    intro hf
    simp [mainScanStep] at hf
  | false =>
    obtain ⟨hN, hD⟩ := h2 rfl
    cases st with
    | E =>
      by_cases hi : i = 0x45
      · subst hi
        refine ⟨?_, ?_⟩
        · intro hf
          simp [mainScanStep, detectEnd, DetectEndState.toByte] at hf
        · intro _
          refine ⟨fun _ => ⟨seen, rfl⟩, ?_⟩
          intro hst
          simp [mainScanStep, detectEnd, DetectEndState.toByte] at hst
      · refine ⟨?_, ?_⟩
        · intro hf
          simp [mainScanStep, detectEnd, DetectEndState.toByte, hi] at hf
        · intro _
          constructor <;> intro hst <;>
            simp [mainScanStep, detectEnd, DetectEndState.toByte, hi] at hst
    | N =>
      obtain ⟨pre, hs⟩ := hN rfl
      by_cases hi : i = 0x4E
      · subst hi
        refine ⟨?_, ?_⟩
        · intro hf
          simp [mainScanStep, detectEnd, DetectEndState.toByte] at hf
        · intro _
          refine ⟨?_, fun _ => ⟨pre, by simp [hs]⟩⟩
          intro hst
          simp [mainScanStep, detectEnd, DetectEndState.toByte] at hst
      · refine ⟨?_, ?_⟩
        · intro hf
          simp [mainScanStep, detectEnd, DetectEndState.toByte, hi] at hf
        · intro _
          constructor <;> intro hst <;>
            simp [mainScanStep, detectEnd, DetectEndState.toByte, hi] at hst
    | D =>
      obtain ⟨pre, hs⟩ := hD rfl
      by_cases hi : i = 0x44
      · subst hi
        refine ⟨fun _ => ⟨pre, [], by simp [hs]⟩, ?_⟩
        intro hf
        simp [mainScanStep, detectEnd, DetectEndState.toByte] at hf
      · refine ⟨?_, ?_⟩
        · intro hf
          simp [mainScanStep, detectEnd, DetectEndState.toByte, hi] at hf
        · intro _
          constructor <;> intro hst <;>
            simp [mainScanStep, detectEnd, DetectEndState.toByte, hi] at hst

/-- The loop of `main` keeps what it knows over any list of bytes. -/
theorem scanInv_run (data seen : List Nat) (p : DetectEndState × Bool)
    (h : scanInv seen p) : scanInv (seen ++ data) (mainScan p data) := by
  induction data generalizing seen p with
  | nil => simpa [mainScan] using h
  | cons i data ih =>
    have hs := ih (seen ++ [i]) (mainScanStep p i) (scanInv_step seen p i h)
    simpa [mainScan] using hs

/-- When the loop of `main`, started in state `E`, sets `isDetectEnd`, the bytes
it has read contain 0x45, 0x4E, 0x44 in a row. -/
theorem mainScan_sound (data : List Nat) (h : (mainScan (DetectEndState.E, false) data).2 = true) :
    ∃ pre post, data = pre ++ [0x45, 0x4E, 0x44] ++ post := by
  have hinv := scanInv_run data [] (DetectEndState.E, false)
    ⟨by simp, fun _ => ⟨by simp, by simp⟩⟩
  simpa using hinv.1 h

/-- Bytes other than 0x45 leave the loop of `main` in state `E`. -/
theorem mainScan_no_E (pre : List Nat) (h : ∀ b ∈ pre, b ≠ 0x45) :
    mainScan (DetectEndState.E, false) pre = (DetectEndState.E, false) := by
  induction pre with
  | nil => rfl
  | cons b pre ih =>
    have hb : b ≠ 0x45 := h b (List.mem_cons_self b pre)
    have hstep : mainScanStep (DetectEndState.E, false) b = (DetectEndState.E, false) := by
      simp [mainScanStep, detectEnd, DetectEndState.toByte, hb]
    have hrun : mainScan (DetectEndState.E, false) (b :: pre) =
        mainScan (mainScanStep (DetectEndState.E, false) b) pre := rfl
    rw [hrun, hstep]
    exact ih (fun c hc => h c (List.mem_cons_of_mem b hc))

/-- Once `isDetectEnd` is set the loop of `main` changes nothing. -/
theorem mainScan_found (st : DetectEndState) (post : List Nat) :
    mainScan (st, true) post = (st, true) := by
  induction post with
  | nil => rfl
  | cons b post ih =>
    have hrun : mainScan (st, true) (b :: post) = mainScan (mainScanStep (st, true) b) post := rfl
    rw [hrun]
    simpa [mainScanStep] using ih

/-- The loop of `main` over two lists in a row. -/
theorem mainScan_append (p : DetectEndState × Bool) (a b : List Nat) :
    mainScan p (a ++ b) = mainScan (mainScan p a) b := by
  simp [mainScan, List.foldl_append]

/-- When no byte 0x45 comes before the bytes 0x45, 0x4E, 0x44, the loop of
`main` sets `isDetectEnd`, and `detectEnd` returns true on that 0x44 and on no
earlier byte. -/
theorem mainScan_finds_after_no_E (pre post : List Nat) (h : ∀ b ∈ pre, b ≠ 0x45) :
    mainScan (DetectEndState.E, false) (pre ++ [0x45, 0x4E, 0x44] ++ post) =
      (DetectEndState.D, true) ∧
    mainScan (DetectEndState.E, false) (pre ++ [0x45, 0x4E]) = (DetectEndState.D, false) := by
  have h3 : mainScan (DetectEndState.E, false) [0x45, 0x4E, 0x44] = (DetectEndState.D, true) := by
    decide
  have h2 : mainScan (DetectEndState.E, false) [0x45, 0x4E] = (DetectEndState.D, false) := by
    decide
  constructor
  · rw [mainScan_append, mainScan_append, mainScan_no_E pre h, h3, mainScan_found]
  · rw [mainScan_append, mainScan_no_E pre h, h2]

/-- In the loop of `main` started in state `E`, the byte on which `isDetectEnd`
becomes true is 0x44 and the two bytes before it are 0x45, 0x4E. -/
theorem mainScan_first_true (pre : List Nat) (b : Nat)
    (hpre : (mainScan (DetectEndState.E, false) pre).2 = false)
    (hb : (mainScan (DetectEndState.E, false) (pre ++ [b])).2 = true) :
    b = 0x44 ∧ ∃ pre0, pre = pre0 ++ [0x45, 0x4E] := by
  have hinv := scanInv_run pre [] (DetectEndState.E, false)
    ⟨by simp, fun _ => ⟨by simp, by simp⟩⟩
  rw [List.nil_append] at hinv
  rw [mainScan_append] at hb
  have hstep : mainScan (mainScan (DetectEndState.E, false) pre) [b] =
      mainScanStep (mainScan (DetectEndState.E, false) pre) b := rfl
  rw [hstep] at hb
  simp only [mainScanStep, hpre] at hb
  have hd := (detectEnd_true_iff _ b).1 (by simpa using hb)
  exact ⟨hd.2, (hinv.2 hpre).2 hd.1⟩

/-- Fed past a detection, `detectEnd` returns true again on a further 0x44:
on 0x45, 0x4E, 0x44, 0x44 the third and the fourth call return true. The loop
of `main` does not call it after the first true. -/
theorem detectEndFeed_after_detection :
    detectEndFeed DetectEndState.E [0x45, 0x4E, 0x44, 0x44] = [false, false, true, true] ∧
    mainScan (DetectEndState.E, false) [0x45, 0x4E, 0x44, 0x44] = (DetectEndState.D, true) := by
  decide

/-- C11, the code at the failing input: the bytes 0x45, 0x45, 0x4E, 0x44
contain 0x45, 0x4E, 0x44 in a row (after one leading 0x45), and fed one at a
time to `detectEnd` from state `E` every call returns false; the loop of
`main` ends in state `E` with `isDetectEnd` false. The same holds for
0x45, 0x4E, 0x45, 0x4E, 0x44. -/
theorem detectEnd_misses_END_after_E :
    [0x45, 0x45, 0x4E, 0x44] = [0x45] ++ [0x45, 0x4E, 0x44] ++ ([] : List Nat) ∧
    detectEndFeed DetectEndState.E [0x45, 0x45, 0x4E, 0x44] = [false, false, false, false] ∧
    mainScan (DetectEndState.E, false) [0x45, 0x45, 0x4E, 0x44] = (DetectEndState.E, false) ∧
    detectEndFeed DetectEndState.E [0x45, 0x4E, 0x45, 0x4E, 0x44] =
      [false, false, false, false, false] ∧
    mainScan (DetectEndState.E, false) [0x45, 0x4E, 0x45, 0x4E, 0x44] =
      (DetectEndState.E, false) := by
  decide

end kylsocomport
